import Mathlib

/-!
Shallow embedding of the microphone frequency-analyzer component
(`src/app.vue`, script section): the published presentation state
(`frequency`, `volume`, `isRecording`, `error`, `frequencyBars`), the
resource handles (`mic`, `analyser`, `animationFrameId`) and the three
operations `start`, `analyzeWithTone` (one analysis cycle) and `stop`.

Numeric values are modelled over `ℚ`.  The one place where JavaScript
number semantics beyond the rationals matters is `updateFrequencyBars`,
where `samplesPerBar` can be `0` and `sum / samplesPerBar` is then the
IEEE value `0/0 = NaN`; the type `JsNum` below models a JS number as
either NaN, a signed infinity, or a finite rational.
-/

set_option allowUnsafeReducibility true in
attribute [semireducible] Rat.add Rat.mul Rat.inv Rat.div Rat.sub Rat.neg

/-- A JavaScript number as it can arise in this program: NaN, a signed
infinity (`inf true` is negative infinity), or a finite rational. -/
inductive JsNum where
  | nan : JsNum
  | inf : Bool → JsNum
  | num : ℚ → JsNum
deriving DecidableEq

/-- JS division of two finite numbers: `q / 0` is NaN when `q = 0` and a
signed infinity otherwise; elsewhere exact division. -/
def jsDiv (q d : ℚ) : JsNum :=
  if d = 0 then (if q = 0 then .nan else .inf (decide (q < 0))) else .num (q / d)

/-- JS multiplication of a number by a finite constant. -/
def jsMul (x : JsNum) (c : ℚ) : JsNum :=
  match x with
  | .nan => .nan
  | .inf b => if c = 0 then .nan else .inf (xor b (decide (c < 0)))
  | .num q => .num (q * c)

/-- `Math.min(c, x)` for a finite `c`: NaN propagates. -/
def jsMin (c : ℚ) (x : JsNum) : JsNum :=
  match x with
  | .nan => .nan
  | .inf b => if b then .inf b else .num c
  | .num q => .num (min c q)

/-- `Math.round` on a finite value: round half toward positive infinity. -/
def jsRound (q : ℚ) : ℤ := ⌊q + 1 / 2⌋

/-- Does a band value display as a number in `[0, 100]`?  NaN and the
infinities do not. -/
def JsNum.inRange0To100 (x : JsNum) : Bool :=
  match x with
  | .num q => decide (0 ≤ q) && decide (q ≤ 100)
  | _ => false

/-- One frequency-domain frame: the `Float32Array` returned by
`analyser.getValue()`. -/
abbrev Frame := List ℚ

/-- `sum += Math.abs(values[i])` over the whole frame (the volume loop,
`src/app.vue` lines 105–108). -/
def absSum (values : Frame) : ℚ :=
  values.foldl (fun sum v => sum + |v|) 0

/-- The volume published by a cycle:
`Math.round(sum / values.length * 1000)` (lines 109–110). -/
def volumeValue (values : Frame) : ℤ :=
  jsRound (absSum values / values.length * 1000)

/-- The peak-search loop (lines 116–123): `i` is the loop counter,
`maxIdx`/`maxVal` the running best; `Math.abs(values[i]) > maxValue`
updates both. -/
def peakGo (i maxIdx : Nat) (maxVal : ℚ) : Frame → Nat
  | [] => maxIdx
  | v :: rest =>
    if maxVal < |v| then peakGo (i + 1) i |v| rest
    else peakGo (i + 1) maxIdx maxVal rest

/-- `maxIndex` after the peak-search loop: initial state
`maxIndex = 0`, `maxValue = 0`. -/
def peakIndex (values : Frame) : Nat := peakGo 0 0 0 values

/-- The frequency published by a cycle:
`Math.round(maxIndex * (44100 / 2) / values.length)` (line 126). -/
def peakFrequency (values : Frame) : ℤ :=
  jsRound ((peakIndex values : ℚ) * (44100 / 2) / values.length)

/-- Inner loop of `updateFrequencyBars` (lines 141–147): sum of
`Math.abs(values[i * samplesPerBar + j])` over `j < samplesPerBar`,
guarded by `index < values.length`. -/
def bandSum (values : Frame) (samplesPerBar i : Nat) : ℚ :=
  (List.range samplesPerBar).foldl
    (fun sum j =>
      let index := i * samplesPerBar + j
      if index < values.length then sum + |values.getD index 0| else sum)
    0

/-- One bar value (lines 148–150): `average = sum / samplesPerBar` (a JS
division, NaN when `samplesPerBar = 0`), then
`Math.min(100, average * 500)`. -/
def barValue (values : Frame) (samplesPerBar i : Nat) : JsNum :=
  jsMin 100 (jsMul (jsDiv (bandSum values samplesPerBar i) samplesPerBar) 500)

/-- `updateFrequencyBars` (lines 136–152): 32 bars, `samplesPerBar =
Math.floor(values.length / 32)`, each slot `i` overwritten with its bar
value. -/
def updateFrequencyBars (values : Frame) : List JsNum :=
  let bars := 32
  let samplesPerBar := values.length / bars
  List.ofFn (fun i : Fin bars => barValue values samplesPerBar i)

/-- The observable and resource state of the component: the five
published refs plus the three module-level handles, each handle
modelled by whether it is currently held (non-null). -/
structure AppState where
  frequency : ℤ
  volume : ℤ
  isRecording : Bool
  error : String
  frequencyBars : List JsNum
  micHeld : Bool
  analyserHeld : Bool
  animationFrameId : Bool
deriving DecidableEq

/-- `Array(32).fill(0)`: the default bars. -/
def defaultBars : List JsNum := List.replicate 32 (.num 0)

/-- The initial state (lines 55–63): frequency 0, volume −100 (the dB
floor), not recording, no error, default bars, no handles. -/
def initState : AppState :=
  { frequency := 0, volume := -100, isRecording := false, error := "",
    frequencyBars := defaultBars, micHeld := false, analyserHeld := false,
    animationFrameId := false }

/-- `stop()` (lines 154–174): cancel the pending animation frame, close
and dispose the mic, dispose the analyser, set `isRecording = false` and
reset the bars.  `frequency`, `volume` and `error` are not touched. -/
def stop (s : AppState) : AppState :=
  { s with animationFrameId := false, micHeld := false, analyserHeld := false,
           isRecording := false, frequencyBars := defaultBars }

/-- What one call to `analyser.getValue()` yields: either it throws, or
it returns a possibly-null, possibly-empty array of samples. -/
inductive Poll where
  | throws : Poll
  | value : Option Frame → Poll

/-- One cycle of `analyzeWithTone` (lines 96–134): return if the
analyser is gone or not recording; otherwise poll.  A throw is caught
and handled by `stop()` with only a console log — `error` is not set.
A non-empty frame publishes volume, bars and frequency; then the next
cycle is scheduled. -/
def analyzeWithTone (s : AppState) (p : Poll) : AppState :=
  if !s.analyserHeld || !s.isRecording then s
  else
    match p with
    | .throws => stop s
    | .value f =>
      let s' :=
        match f with
        | none => s
        | some values =>
          if 0 < values.length then
            { s with
              volume := volumeValue values,
              frequencyBars := updateFrequencyBars values,
              frequency := peakFrequency values }
          else s
      { s' with animationFrameId := true }

/-- Where the acquisition sequence of `start()` (lines 77–87) can throw:
at `new Analyser`, at `new UserMedia`, at `mic.connect`, at
`await mic.open()`, or nowhere. -/
inductive StartOutcome where
  | failAnalyser : StartOutcome
  | failMic : StartOutcome
  | failConnect : StartOutcome
  | failOpen : StartOutcome
  | success : StartOutcome
deriving DecidableEq

/-- The fixed message assigned to `error.value` in the catch of
`start()` (line 91). -/
def startFailMsg : String :=
  "Failed to access microphone. Please check permissions and try again."

/-- `start()` (lines 70–94): no-op when already recording; otherwise
clear `error`, create the analyser, create and connect the mic, open
it, set `isRecording = true` and run the first analysis cycle.  A throw
anywhere in that sequence is caught: `error` is set to the fixed
message and `isRecording` to false, but handles assigned before the
throw keep their values — nothing is released in the catch. -/
def start (s : AppState) (o : StartOutcome) (firstPoll : Poll) : AppState :=
  if s.isRecording then s
  else
    let s0 := { s with error := "" }
    match o with
    | .failAnalyser => { s0 with error := startFailMsg, isRecording := false }
    | .failMic =>
        { s0 with analyserHeld := true, error := startFailMsg, isRecording := false }
    | .failConnect =>
        { s0 with analyserHeld := true, micHeld := true,
                  error := startFailMsg, isRecording := false }
    | .failOpen =>
        { s0 with analyserHeld := true, micHeld := true,
                  error := startFailMsg, isRecording := false }
    | .success =>
        analyzeWithTone
          { s0 with analyserHeld := true, micHeld := true, isRecording := true }
          firstPoll

/-- The direction of the spec's invariant that the code maintains:
recording implies both resources held. -/
def RecImpliesHeld (s : AppState) : Prop :=
  s.isRecording = true → s.micHeld = true ∧ s.analyserHeld = true

/-- Spec-side: the maximum absolute magnitude over a frame (written
from the spec's words, for comparison with the loop). -/
def maxAbs (values : Frame) : ℚ :=
  values.foldl (fun m v => max m |v|) 0

/-- Spec-side: "the sample index with maximum absolute magnitude ...
Tie-break: first index encountered wins (lowest index on equal
magnitude)" — the lowest index whose absolute magnitude attains
`maxAbs`, written from the spec's words, to be compared with the
loop's `peakIndex`. -/
def specLowestArgmax (values : Frame) : Nat :=
  values.findIdx (fun v => decide (maxAbs values ≤ |v|))

/-- Scenario B of the spec: a 2048-sample frame whose only non-zero
sample is a 1.0 at index 1024. -/
def scenarioFrame : Frame :=
  List.replicate 1024 0 ++ 1 :: List.replicate 1023 0

/-! ## Basic facts about the operations -/

theorem stop_fields (s : AppState) :
    (stop s).frequency = s.frequency ∧ (stop s).volume = s.volume ∧
    (stop s).error = s.error ∧ (stop s).isRecording = false ∧
    (stop s).micHeld = false ∧ (stop s).analyserHeld = false ∧
    (stop s).animationFrameId = false ∧ (stop s).frequencyBars = defaultBars :=
  ⟨rfl, rfl, rfl, rfl, rfl, rfl, rfl, rfl⟩

theorem analyze_guard (s : AppState) (p : Poll)
    (h : s.analyserHeld = false ∨ s.isRecording = false) :
    analyzeWithTone s p = s := by
  rcases h with h | h <;> simp [analyzeWithTone, h]

theorem analyze_throws (s : AppState)
    (h1 : s.analyserHeld = true) (h2 : s.isRecording = true) :
    analyzeWithTone s .throws = stop s := by
  simp [analyzeWithTone, h1, h2]

theorem analyze_publish (s : AppState) (values : Frame)
    (h1 : s.analyserHeld = true) (h2 : s.isRecording = true) (h3 : values ≠ []) :
    analyzeWithTone s (.value (some values)) =
      { s with volume := volumeValue values,
               frequencyBars := updateFrequencyBars values,
               frequency := peakFrequency values,
               animationFrameId := true } := by
  have hlen : 0 < values.length := List.length_pos.mpr h3
  simp [analyzeWithTone, h1, h2, hlen]

theorem analyzeWithTone_shape (s : AppState) (p : Poll) :
    analyzeWithTone s p = s ∨ analyzeWithTone s p = stop s ∨
    analyzeWithTone s p = { s with animationFrameId := true } ∨
    ∃ values : Frame, values ≠ [] ∧ analyzeWithTone s p =
      { s with volume := volumeValue values,
               frequencyBars := updateFrequencyBars values,
               frequency := peakFrequency values,
               animationFrameId := true } := by
  unfold analyzeWithTone
  split
  · exact Or.inl rfl
  · cases p with
    | throws => exact Or.inr (Or.inl rfl)
    | value f =>
      cases f with
      | none => exact Or.inr (Or.inr (Or.inl rfl))
      | some values =>
        by_cases h : 0 < values.length
        · exact Or.inr (Or.inr (Or.inr
            ⟨values, List.ne_nil_of_length_pos h, by simp [h]⟩))
        · refine Or.inr (Or.inr (Or.inl ?_))
          simp [h]

/-! ## C1: stop after start and the published metrics -/

/-- C1 (as stated, refuted at a concrete session): after a successful
`start` that published frequency 11025 and volume 500 from the frame
`[0, 1]`, `stop` leaves frequency and volume at those values — they are
not returned to the documented defaults 0 and −100. -/
theorem c1_counterexample :
    (stop (start initState .success (.value (some [0, 1])))).frequency ≠ 0 ∧
    (stop (start initState .success (.value (some [0, 1])))).volume ≠ -100 := by
  decide

/-- C1 (amended): `stop()` after `start()` resets the 32 bands to their
default zeros and clears the recording flag, but leaves `frequency` and
`volume` at whatever the session last published. -/
theorem c1_stop_after_start (s : AppState) (o : StartOutcome) (p : Poll) :
    (stop (start s o p)).frequencyBars = defaultBars ∧
    (stop (start s o p)).isRecording = false ∧
    (stop (start s o p)).frequency = (start s o p).frequency ∧
    (stop (start s o p)).volume = (start s o p).volume :=
  ⟨rfl, rfl, rfl, rfl⟩

/-! ## C2: exception during a running cycle -/

/-- C2 (as stated, refuted at a concrete session): with a session
running (`isRecording = true`) and no prior error, a cycle that throws
leaves the `error` field empty — no user-facing message is published. -/
theorem c2_counterexample :
    (start initState .success (.value none)).isRecording = true ∧
    (analyzeWithTone (start initState .success (.value none)) .throws).error = "" := by
  decide

/-- C2 (amended): an exception in a running cycle stops the session —
the cycle is exactly an internal `stop()`: resources released,
`isRecording = false`, the pending animation frame cancelled — but the
`error` field is left unchanged; the failure is only logged. -/
theorem c2_cycle_exception (s : AppState)
    (h1 : s.analyserHeld = true) (h2 : s.isRecording = true) :
    analyzeWithTone s .throws = stop s ∧
    (analyzeWithTone s .throws).isRecording = false ∧
    (analyzeWithTone s .throws).micHeld = false ∧
    (analyzeWithTone s .throws).analyserHeld = false ∧
    (analyzeWithTone s .throws).animationFrameId = false ∧
    (analyzeWithTone s .throws).error = s.error := by
  have h := analyze_throws s h1 h2
  rw [h]
  exact ⟨rfl, rfl, rfl, rfl, rfl, rfl⟩

/-- Witness for C2 at a concrete running session. -/
theorem c2_witness :
    (start initState .success (.value none)).analyserHeld = true ∧
    (start initState .success (.value none)).isRecording = true ∧
    (analyzeWithTone (start initState .success (.value none)) .throws).error =
      (start initState .success (.value none)).error :=
  ⟨rfl, rfl, (c2_cycle_exception (start initState .success (.value none)) rfl rfl).2.2.2.2.2⟩

/-! ## C3: failure during start -/

/-- C3 (as stated, refuted at a concrete input): when `mic.open()`
throws (permission denied), both the analyser and the mic created
before the throw remain held — the partially acquired resources are not
released. -/
theorem c3_counterexample :
    (start initState .failOpen (.value none)).micHeld = true ∧
    (start initState .failOpen (.value none)).analyserHeld = true := by
  decide

/-- C3 (amended): after any failure during `start()`, `error` holds the
fixed non-empty message and `isRecording` is false, but sub-resources
acquired before the failing step are not released — after an
open-failure both the analyser and the mic remain held. -/
theorem c3_start_failure (s : AppState) (o : StartOutcome) (p : Poll)
    (hrec : s.isRecording = false) (ho : o ≠ .success) :
    (start s o p).error = startFailMsg ∧
    startFailMsg ≠ "" ∧
    (start s o p).isRecording = false ∧
    (o = .failOpen → (start s o p).micHeld = true ∧ (start s o p).analyserHeld = true) := by
  refine ⟨?_, by decide, ?_, ?_⟩ <;> cases o <;> simp_all [start]

/-- Witness for C3 at the open-failure outcome from the initial state. -/
theorem c3_witness :
    initState.isRecording = false ∧ StartOutcome.failOpen ≠ StartOutcome.success ∧
    ((start initState .failOpen (.value none)).error = startFailMsg ∧
     startFailMsg ≠ "" ∧
     (start initState .failOpen (.value none)).isRecording = false ∧
     (StartOutcome.failOpen = StartOutcome.failOpen →
       (start initState .failOpen (.value none)).micHeld = true ∧
       (start initState .failOpen (.value none)).analyserHeld = true)) :=
  ⟨rfl, by decide, c3_start_failure initState .failOpen (.value none) rfl (by decide)⟩

/-! ## C4: the recording/resources invariant -/

theorem analyze_preserves_recImpliesHeld (s : AppState) (p : Poll)
    (h : RecImpliesHeld s) : RecImpliesHeld (analyzeWithTone s p) := by
  rcases analyzeWithTone_shape s p with heq | heq | heq | ⟨values, -, heq⟩ <;>
    rw [heq] <;> intro hrec
  · exact h hrec
  · exact absurd hrec (by simp [stop])
  · exact h hrec
  · exact h hrec

/-- C4 (as stated, refuted at a concrete input): after `start()` fails
at `mic.open()`, `isRecording` is false yet the analyser is still held,
violating "`isRecording == false` implies neither is held". -/
theorem c4_counterexample :
    (start initState .failOpen .throws).isRecording = false ∧
    (start initState .failOpen .throws).analyserHeld = true := by
  decide

/-- C4 (amended): the forward direction — `isRecording = true` implies
both the mic and the analyser are held — is preserved by `start`,
`stop` and every analysis cycle; the converse direction fails on
exceptional exit from `start()` (see the counterexample). -/
theorem c4_invariant (s : AppState) (h : RecImpliesHeld s) :
    (∀ (o : StartOutcome) (p : Poll), RecImpliesHeld (start s o p)) ∧
    RecImpliesHeld (stop s) ∧
    (∀ p : Poll, RecImpliesHeld (analyzeWithTone s p)) := by
  refine ⟨?_, ?_, fun p => analyze_preserves_recImpliesHeld s p h⟩
  · intro o p
    unfold start
    split
    · exact h
    · cases o with
      | success =>
          apply analyze_preserves_recImpliesHeld
          intro hrec
          exact ⟨rfl, rfl⟩
      | failAnalyser => intro hrec; simp at hrec
      | failMic => intro hrec; simp at hrec
      | failConnect => intro hrec; simp at hrec
      | failOpen => intro hrec; simp at hrec
  · intro hrec
    exact absurd hrec (by simp [stop])

/-- Witness for C4 at the initial state. -/
theorem c4_witness :
    RecImpliesHeld initState ∧
    ((∀ (o : StartOutcome) (p : Poll), RecImpliesHeld (start initState o p)) ∧
     RecImpliesHeld (stop initState) ∧
     (∀ p : Poll, RecImpliesHeld (analyzeWithTone initState p))) :=
  ⟨fun hrec => absurd hrec (by decide), c4_invariant initState (fun hrec => absurd hrec (by decide))⟩

/-! ## C8: idempotence of stop -/

/-- C8 (as stated, refuted at a concrete stopped state): the state left
by stopping a session that published frequency 11025 is already stopped,
yet calling `stop()` on it again leaves the published frequency at
11025, not at its default 0. -/
theorem c8_counterexample :
    (stop (start initState .success (.value (some [0, 1])))).isRecording = false ∧
    (stop (stop (start initState .success (.value (some [0, 1]))))).frequency ≠ 0 := by
  decide

/-- C8 (amended): calling `stop()` on an already-stopped state raises
no failure and leaves `isRecording = false`, `error` unchanged, the
bands at their defaults, and `frequency`/`volume` unchanged (so at
their defaults only if they already were); `stop` is idempotent as a
function. -/
theorem c8_stop_idempotent (s : AppState) (_h : s.isRecording = false) :
    (stop s).isRecording = false ∧ (stop s).error = s.error ∧
    (stop s).frequencyBars = defaultBars ∧
    (stop s).frequency = s.frequency ∧ (stop s).volume = s.volume ∧
    stop (stop s) = stop s :=
  ⟨rfl, rfl, rfl, rfl, rfl, rfl⟩

/-- Witness for C8 at the initial (stopped) state. -/
theorem c8_witness :
    initState.isRecording = false ∧
    ((stop initState).isRecording = false ∧ (stop initState).error = initState.error ∧
     (stop initState).frequencyBars = defaultBars ∧
     (stop initState).frequency = initState.frequency ∧
     (stop initState).volume = initState.volume ∧
     stop (stop initState) = stop initState) :=
  ⟨rfl, c8_stop_idempotent initState rfl⟩

/-! ## C9: empty or null frames are no-update cycles -/

/-- C9: a cycle whose poll yields a null frame or a zero-length frame
leaves all published metrics and the error field unchanged (the cycle
is total — nothing is raised — and only the scheduling handle may
change). -/
theorem c9_empty_frame_noop (s : AppState) :
    ((analyzeWithTone s (.value none)).frequency = s.frequency ∧
     (analyzeWithTone s (.value none)).volume = s.volume ∧
     (analyzeWithTone s (.value none)).frequencyBars = s.frequencyBars ∧
     (analyzeWithTone s (.value none)).error = s.error) ∧
    ((analyzeWithTone s (.value (some []))).frequency = s.frequency ∧
     (analyzeWithTone s (.value (some []))).volume = s.volume ∧
     (analyzeWithTone s (.value (some []))).frequencyBars = s.frequencyBars ∧
     (analyzeWithTone s (.value (some []))).error = s.error) := by
  constructor <;> (unfold analyzeWithTone; split) <;> exact ⟨rfl, rfl, rfl, rfl⟩

/-! ## C5: the 32 bands -/

theorem foldl_nonneg {α : Type} (f : ℚ → α → ℚ) (hf : ∀ q a, 0 ≤ q → 0 ≤ f q a) :
    ∀ (l : List α) (init : ℚ), 0 ≤ init → 0 ≤ l.foldl f init := by
  intro l
  induction l with
  | nil => intro init h; exact h
  | cons a l ih => intro init h; exact ih (f init a) (hf init a h)

theorem bandSum_nonneg (values : Frame) (samplesPerBar i : Nat) :
    0 ≤ bandSum values samplesPerBar i := by
  refine foldl_nonneg _ ?_ _ _ le_rfl
  intro q j hq
  dsimp only
  split
  · exact add_nonneg hq (abs_nonneg _)
  · exact hq

/-- C5 (as stated, refuted at a concrete input): the frame `[1]` has
positive length, so the reducer runs on it, but `samplesPerBar` is 0 and
every bar becomes `0/0 = NaN` — not a number in `[0, 100]`. -/
theorem c5_counterexample :
    0 < ([1] : Frame).length ∧
    (updateFrequencyBars [1]).length = 32 ∧
    (updateFrequencyBars [1]).all JsNum.inRange0To100 = false := by
  decide

/-- C5 (amended): for every frame of length at least 32, the produced
bands have length exactly 32 and every element is a number in
`[0, 100]`; for shorter non-empty frames `samplesPerBar` is 0 and every
band is NaN (see the counterexample). -/
theorem c5_bands_in_range (values : Frame) (h : 32 ≤ values.length) :
    (updateFrequencyBars values).length = 32 ∧
    ∀ b ∈ updateFrequencyBars values, b.inRange0To100 = true := by
  refine ⟨by simp [updateFrequencyBars], ?_⟩
  intro b hb
  rw [updateFrequencyBars] at hb
  simp only [List.mem_ofFn] at hb
  obtain ⟨i, rfl⟩ := hb
  have hspb : values.length / 32 ≠ 0 := by
    have h1 : 1 ≤ values.length / 32 := (Nat.one_le_div_iff (by norm_num)).mpr h
    omega
  have hcast : ((values.length / 32 : Nat) : ℚ) ≠ 0 := Nat.cast_ne_zero.mpr hspb
  have hq : 0 ≤ bandSum values (values.length / 32) i / ((values.length / 32 : Nat) : ℚ) :=
    div_nonneg (bandSum_nonneg _ _ _) (Nat.cast_nonneg _)
  unfold barValue
  show (jsMin 100 (jsMul (jsDiv (bandSum values (values.length / 32) i)
    ((values.length / 32 : Nat) : ℚ)) 500)).inRange0To100 = true
  rw [jsDiv, if_neg hcast]
  simp only [jsMul, jsMin, JsNum.inRange0To100, Bool.and_eq_true, decide_eq_true_eq]
  constructor
  · exact le_min (by norm_num) (by positivity)
  · exact min_le_left _ _

/-- Witness for C5 at a frame of 32 ones (each bar is
`min(100, 1 * 500) = 100`). -/
theorem c5_witness :
    32 ≤ (List.replicate 32 (1 : ℚ)).length ∧
    ((updateFrequencyBars (List.replicate 32 (1 : ℚ))).length = 32 ∧
     ∀ b ∈ updateFrequencyBars (List.replicate 32 (1 : ℚ)), b.inRange0To100 = true) :=
  ⟨by decide, c5_bands_in_range (List.replicate 32 (1 : ℚ)) (by decide)⟩

/-! ## The peak-search loop: characterization -/

theorem peakGo_spec (rest : List ℚ) : ∀ (i mi : Nat) (mv : ℚ),
    (peakGo i mi mv rest = mi ∧ ∀ v ∈ rest, |v| ≤ mv) ∨
    (∃ k, k < rest.length ∧ peakGo i mi mv rest = i + k ∧ mv < |rest.getD k 0| ∧
      (∀ v ∈ rest, |v| ≤ |rest.getD k 0|) ∧
      (∀ j, j < k → |rest.getD j 0| < |rest.getD k 0|)) := by
  induction rest with
  | nil =>
    intro i mi mv
    left
    exact ⟨rfl, by intro v hv; cases hv⟩
  | cons v rest ih =>
    intro i mi mv
    simp only [peakGo]
    by_cases hv : mv < |v|
    · rw [if_pos hv]
      rcases ih (i + 1) i |v| with ⟨heq, hbound⟩ | ⟨k, hk, heq, hgt, hbound, hstrict⟩
      · right
        refine ⟨0, by simp, by simpa using heq, by simpa using hv, ?_, ?_⟩
        · intro w hw
          rcases List.mem_cons.mp hw with rfl | hw
          · simp
          · exact le_trans (hbound w hw) (by simp)
        · intro j hj; omega
      · right
        refine ⟨k + 1, by simpa using hk, ?_, ?_, ?_, ?_⟩
        · rw [heq]; omega
        · simpa [List.getD_cons_succ] using lt_trans hv hgt
        · intro w hw
          rcases List.mem_cons.mp hw with rfl | hw
          · simpa [List.getD_cons_succ] using le_of_lt hgt
          · simpa [List.getD_cons_succ] using hbound w hw
        · intro j hj
          cases j with
          | zero => simpa [List.getD_cons_zero, List.getD_cons_succ] using hgt
          | succ j =>
            simp only [List.getD_cons_succ]
            exact hstrict j (by omega)
    · rw [if_neg hv]
      rcases ih (i + 1) mi mv with ⟨heq, hbound⟩ | ⟨k, hk, heq, hgt, hbound, hstrict⟩
      · left
        refine ⟨heq, ?_⟩
        intro w hw
        rcases List.mem_cons.mp hw with rfl | hw
        · exact not_lt.mp hv
        · exact hbound w hw
      · right
        refine ⟨k + 1, by simpa using hk, ?_, ?_, ?_, ?_⟩
        · rw [heq]; omega
        · simpa [List.getD_cons_succ] using hgt
        · intro w hw
          rcases List.mem_cons.mp hw with rfl | hw
          · simp only [List.getD_cons_succ]
            exact le_trans (not_lt.mp hv) (le_of_lt hgt)
          · simpa [List.getD_cons_succ] using hbound w hw
        · intro j hj
          cases j with
          | zero =>
            simp only [List.getD_cons_zero, List.getD_cons_succ]
            exact lt_of_le_of_lt (not_lt.mp hv) hgt
          | succ j =>
            simp only [List.getD_cons_succ]
            exact hstrict j (by omega)

theorem peakIndex_spec (values : Frame) :
    (peakIndex values = 0 ∧ ∀ v ∈ values, |v| ≤ 0) ∨
    (peakIndex values < values.length ∧ 0 < |values.getD (peakIndex values) 0| ∧
     (∀ v ∈ values, |v| ≤ |values.getD (peakIndex values) 0|) ∧
     (∀ j, j < peakIndex values → |values.getD j 0| < |values.getD (peakIndex values) 0|)) := by
  rcases peakGo_spec values 0 0 0 with ⟨heq, hb⟩ | ⟨k, hk, heq, hgt, hb, hs⟩
  · left
    exact ⟨heq, hb⟩
  · right
    have hpk : peakIndex values = k := by simpa [peakIndex] using heq
    rw [hpk]
    exact ⟨hk, hgt, hb, hs⟩

theorem peakIndex_lt_length (values : Frame) (h : values ≠ []) :
    peakIndex values < values.length := by
  rcases peakIndex_spec values with ⟨heq, -⟩ | ⟨hlt, -⟩
  · rw [heq]; exact List.length_pos.mpr h
  · exact hlt

/-! ## C6: the published frequency is in the half-spectrum range -/

/-- C6: for every non-empty frame, the frequency a cycle publishes lies
in `[0, 22050]` (it is `round(maxIndex * 22050 / length)` with
`maxIndex < length`). -/
theorem c6_frequency_in_range (s : AppState) (values : Frame)
    (h1 : s.analyserHeld = true) (h2 : s.isRecording = true) (h3 : values ≠ []) :
    0 ≤ (analyzeWithTone s (.value (some values))).frequency ∧
    (analyzeWithTone s (.value (some values))).frequency ≤ 22050 := by
  rw [analyze_publish s values h1 h2 h3]
  show 0 ≤ peakFrequency values ∧ peakFrequency values ≤ 22050
  have hlen : 0 < values.length := List.length_pos.mpr h3
  have hlenq : (0 : ℚ) < values.length := by exact_mod_cast hlen
  have hp : peakIndex values < values.length := peakIndex_lt_length values h3
  have hx0 : 0 ≤ (peakIndex values : ℚ) * (44100 / 2) / values.length := by positivity
  have hxlt : (peakIndex values : ℚ) * (44100 / 2) / values.length < 22050 := by
    rw [div_lt_iff₀ hlenq]
    have hpq : (peakIndex values : ℚ) < values.length := by exact_mod_cast hp
    nlinarith [hpq]
  unfold peakFrequency jsRound
  constructor
  · exact Int.le_floor.mpr (by push_cast; linarith)
  · have hfl : ⌊(peakIndex values : ℚ) * (44100 / 2) / values.length + 1 / 2⌋ < 22051 :=
      Int.floor_lt.mpr (by push_cast; linarith)
    omega

/-- Witness for C6 at the frame `[0, 1]` in a running session. -/
theorem c6_witness :
    (start initState .success (.value none)).analyserHeld = true ∧
    (start initState .success (.value none)).isRecording = true ∧
    ([0, 1] : Frame) ≠ [] ∧
    (0 ≤ (analyzeWithTone (start initState .success (.value none))
            (.value (some [0, 1]))).frequency ∧
     (analyzeWithTone (start initState .success (.value none))
            (.value (some [0, 1]))).frequency ≤ 22050) :=
  ⟨rfl, rfl, by decide,
   c6_frequency_in_range (start initState .success (.value none)) [0, 1] rfl rfl (by decide)⟩

/-! ## C10: the published volume -/

/-- C10: the volume a cycle publishes on a non-empty frame is
`round(mean |sample| × 1000)`, a non-negative integer — even though the
initial volume is the −100 floor, no cycle ever publishes a negative
volume. -/
theorem c10_volume_nonneg (s : AppState) (values : Frame)
    (h1 : s.analyserHeld = true) (h2 : s.isRecording = true) (h3 : values ≠ []) :
    (analyzeWithTone s (.value (some values))).volume =
      jsRound (absSum values / values.length * 1000) ∧
    initState.volume = -100 ∧
    0 ≤ (analyzeWithTone s (.value (some values))).volume := by
  rw [analyze_publish s values h1 h2 h3]
  refine ⟨rfl, rfl, ?_⟩
  show 0 ≤ volumeValue values
  have habs : 0 ≤ absSum values :=
    foldl_nonneg _ (fun q v hq => add_nonneg hq (abs_nonneg _)) values 0 le_rfl
  have hx : 0 ≤ absSum values / values.length * 1000 := by positivity
  unfold volumeValue jsRound
  exact Int.le_floor.mpr (by push_cast; linarith)

/-- Witness for C10 at the frame `[0, 1]` in a running session. -/
theorem c10_witness :
    (start initState .success (.value none)).analyserHeld = true ∧
    (start initState .success (.value none)).isRecording = true ∧
    ([0, 1] : Frame) ≠ [] ∧
    ((analyzeWithTone (start initState .success (.value none))
        (.value (some [0, 1]))).volume =
      jsRound (absSum [0, 1] / ([0, 1] : Frame).length * 1000) ∧
     initState.volume = -100 ∧
     0 ≤ (analyzeWithTone (start initState .success (.value none))
        (.value (some [0, 1]))).volume) :=
  ⟨rfl, rfl, by decide,
   c10_volume_nonneg (start initState .success (.value none)) [0, 1] rfl rfl (by decide)⟩

/-! ## C7: the loop's peak index is the spec's lowest argmax -/

theorem getD_eq_getElem_of_lt {l : List ℚ} {n : Nat} (h : n < l.length) :
    l.getD n 0 = l[n] := by
  rw [List.getD_eq_getElem?_getD, List.getElem?_eq_getElem h, Option.getD_some]

theorem le_foldl_max (l : List ℚ) : ∀ init : ℚ,
    init ≤ l.foldl (fun m v => max m |v|) init ∧
    ∀ v ∈ l, |v| ≤ l.foldl (fun m v => max m |v|) init := by
  induction l with
  | nil =>
    intro init
    exact ⟨le_rfl, by intro v hv; cases hv⟩
  | cons w l ih =>
    intro init
    constructor
    · exact le_trans (le_max_left _ _) (ih (max init |w|)).1
    · intro v hv
      rcases List.mem_cons.mp hv with rfl | hv
      · exact le_trans (le_max_right _ _) (ih (max init |v|)).1
      · exact (ih (max init |w|)).2 v hv

theorem foldl_max_le (l : List ℚ) (b : ℚ) : ∀ init : ℚ, init ≤ b →
    (∀ v ∈ l, |v| ≤ b) → l.foldl (fun m v => max m |v|) init ≤ b := by
  induction l with
  | nil => intro init h _; exact h
  | cons w l ih =>
    intro init h hall
    exact ih (max init |w|) (max_le h (hall w (List.mem_cons_self w l)))
      (fun v hv => hall v (List.mem_cons_of_mem w hv))

theorem peakIndex_eq_specLowestArgmax (values : Frame) (h : values ≠ []) :
    peakIndex values = specLowestArgmax values := by
  rcases peakIndex_spec values with ⟨heq, hall⟩ | ⟨hlt, hpos, hmax, hstrict⟩
  · obtain ⟨v, rest, rfl⟩ := List.exists_cons_of_ne_nil h
    rw [heq]
    have hmx : maxAbs (v :: rest) = 0 :=
      le_antisymm (foldl_max_le _ 0 0 le_rfl hall) (le_foldl_max _ 0).1
    have hple : maxAbs (v :: rest) ≤ |v| := by
      rw [hmx]; exact abs_nonneg v
    simp [specLowestArgmax, List.findIdx_cons, hple]
  · have hmem : values.getD (peakIndex values) 0 ∈ values := by
      rw [getD_eq_getElem_of_lt hlt]
      exact List.getElem_mem hlt
    have hmaxabs : maxAbs values = |values.getD (peakIndex values) 0| :=
      le_antisymm (foldl_max_le _ _ 0 (abs_nonneg _) hmax)
        ((le_foldl_max values 0).2 _ hmem)
    unfold specLowestArgmax
    symm
    rw [List.findIdx_eq hlt]
    constructor
    · simp only [decide_eq_true_eq]
      rw [hmaxabs, getD_eq_getElem_of_lt hlt]
    · intro j hj
      have hjlt : j < values.length := lt_trans hj hlt
      simp only [decide_eq_false_iff_not, not_le]
      rw [hmaxabs, ← getD_eq_getElem_of_lt hjlt]
      exact hstrict j hj

/-- C7: for every non-empty frame in a running session, the published
peak frequency equals `round(i * (44100/2) / length)` where `i` is the
spec's lowest index attaining the maximum absolute magnitude (first
index wins on ties); the loop's `maxIndex` coincides with that index. -/
theorem c7_peak_frequency_formula (s : AppState) (values : Frame)
    (h1 : s.analyserHeld = true) (h2 : s.isRecording = true) (h3 : values ≠ []) :
    peakIndex values = specLowestArgmax values ∧
    (analyzeWithTone s (.value (some values))).frequency =
      jsRound ((specLowestArgmax values : ℚ) * (44100 / 2) / values.length) := by
  have hps := peakIndex_eq_specLowestArgmax values h3
  refine ⟨hps, ?_⟩
  rw [analyze_publish s values h1 h2 h3]
  show peakFrequency values = _
  rw [peakFrequency, hps]

/-! Evaluation of the spec's Scenario B frame, by structure rather than
by brute-force reduction. -/

theorem peakGo_replicate_zero (n : Nat) : ∀ (i mi : Nat) (mv : ℚ), 0 ≤ mv →
    peakGo i mi mv (List.replicate n 0) = mi := by
  induction n with
  | zero => intro i mi mv _; rfl
  | succ n ih =>
    intro i mi mv hmv
    rw [List.replicate_succ]
    simp only [peakGo]
    rw [if_neg (by simpa using not_lt.mpr hmv)]
    exact ih (i + 1) mi mv hmv

theorem peakGo_replicate_zero_append (n : Nat) (rest : List ℚ) :
    ∀ (i mi : Nat) (mv : ℚ), 0 ≤ mv →
      peakGo i mi mv (List.replicate n 0 ++ rest) = peakGo (i + n) mi mv rest := by
  induction n with
  | zero => intro i mi mv _; rfl
  | succ n ih =>
    intro i mi mv hmv
    rw [List.replicate_succ, List.cons_append]
    simp only [peakGo]
    rw [if_neg (by simpa using not_lt.mpr hmv)]
    rw [ih (i + 1) mi mv hmv]
    congr 1
    omega

theorem scenarioFrame_length : scenarioFrame.length = 2048 := by
  rw [scenarioFrame, List.length_append, List.length_replicate, List.length_cons,
    List.length_replicate]

theorem scenarioFrame_ne_nil : scenarioFrame ≠ [] := by
  intro h
  have hlen := scenarioFrame_length
  rw [h, List.length_nil] at hlen
  exact absurd hlen (by norm_num)

theorem peakGo_cons (i mi : Nat) (mv v : ℚ) (rest : List ℚ) :
    peakGo i mi mv (v :: rest) =
      if mv < |v| then peakGo (i + 1) i |v| rest
      else peakGo (i + 1) mi mv rest := rfl

theorem peakIndex_scenarioFrame : peakIndex scenarioFrame = 1024 := by
  unfold peakIndex scenarioFrame
  rw [peakGo_replicate_zero_append 1024 _ 0 0 0 le_rfl]
  rw [peakGo_cons]
  rw [if_pos (by norm_num : (0 : ℚ) < |(1 : ℚ)|)]
  rw [peakGo_replicate_zero 1023 (0 + 1024 + 1) (0 + 1024) |(1 : ℚ)| (abs_nonneg 1)]

/-- Witness for C7 at the spec's Scenario B: the 2048-sample frame with
a single 1.0 at index 1024 yields `round(1024 * 22050 / 2048) = 11025`. -/
theorem c7_witness :
    (start initState .success (.value none)).analyserHeld = true ∧
    (start initState .success (.value none)).isRecording = true ∧
    scenarioFrame ≠ [] ∧
    (analyzeWithTone (start initState .success (.value none))
       (.value (some scenarioFrame))).frequency = 11025 := by
  refine ⟨rfl, rfl, scenarioFrame_ne_nil, ?_⟩
  have h := c7_peak_frequency_formula (start initState .success (.value none))
    scenarioFrame rfl rfl scenarioFrame_ne_nil
  rw [h.2, ← h.1, peakIndex_scenarioFrame, scenarioFrame_length, jsRound]
  rw [Int.floor_eq_iff]
  push_cast
  norm_num
